import Mathlib

/-!
Shallow embedding of the embedding-backed semantic retrieval subsystem of the
`business-architect` backend (`src/backend/core/vector_manager.py`, with the
record model from `src/backend/core/models.py`, class `VectorEmbedding`).

Modelling conventions:

* Vectors are `List ℚ`.  The external embedding service (`genai.embed_content`)
  together with the numpy post-processing of `generate_embedding` lines 104-106
  (array conversion and L2 normalisation) is not part of this repository; its
  outcome for a given text is supplied as a parameter
  `svc : String → Except String Vec` (`Except.error` models the service raising).
  The source logic of `generate_embedding` that *is* in the repository — strip,
  empty-text check, try/except re-raise — is embedded directly.
* The FAISS index (`faiss.IndexFlatIP`) is an external library.  Modelled from
  the spec (§4.2): an append-only list of vectors; `search` returns up to
  `min(k, size)` hits ranked by inner product descending, ties broken by index
  position ascending.
* `self.indexes` is a Python dict `index_key ↦ index`; modelled as an
  association list `List (String × List Vec)` with dict-assignment semantics.
* The Django table `VectorEmbedding` is a list of `VectorRecord`s;
  `update_or_create` keyed on `(content_type, object_id)` is embedded directly.
  `related_object` resolution (the excluded CRUD object model) is a parameter
  `related : String → String → Bool` telling whether the source entity exists.
* Python exceptions are `Except VMError`; a raised exception carries no
  successor state, matching that every raise in `add_vector` happens before any
  index or record mutation.  `rebuild_index` mutates `self` in place before it
  can raise, so it returns `VMState × Option VMError` keeping the partial state.
* `_save_indexes` performs disk writes; its write plan is modelled separately
  as a list of `FileWrite` operations (`save_indexes_writes`).
-/

deriving instance DecidableEq for Except

/-- An embedding vector (`np.ndarray` of the agreed dimension). -/
abbrev Vec := List ℚ

/-- A row of the `VectorEmbedding` table (`models.py`): the fields touched by
`vector_manager.py`.  `created_at`/`updated_at` timestamps are DB-managed and
never read by the subsystem, so they are omitted. -/
structure VectorRecord where
  content_type : String
  object_id : String
  vector_index : Nat
  text_content : String
  embedding_model : String
deriving DecidableEq, Repr

/-- In-memory state of `VectorManager`: the FAISS index dict and the
`VectorEmbedding` table. -/
structure VMState where
  indexes : List (String × List Vec)
  records : List VectorRecord
deriving DecidableEq, Repr

/-- Errors raised by the subsystem: `ValueError` for empty text, a re-raised
embedding-service failure, and Python's `KeyError` for `self.indexes[key]` on
an unknown key. -/
inductive VMError where
  | valueError (msg : String)
  | serviceError (msg : String)
  | keyError (key : String)
deriving DecidableEq, Repr

/-- Python `str.strip()`: drop leading and trailing whitespace characters. -/
def pyStrip (s : String) : String :=
  ⟨((s.data.dropWhile Char.isWhitespace).reverse.dropWhile Char.isWhitespace).reverse⟩

/-- Python `str.lower()` (ASCII content-type strings only are passed here). -/
def pyLower (s : String) : String :=
  ⟨s.data.map Char.toLower⟩

/-- Python `str.endswith(suffix)`. -/
def pyEndsWith (s suffix : String) : Bool :=
  s.data.drop (s.data.length - suffix.data.length) == suffix.data

/-- Dict lookup `self.indexes[key]`; `none` models Python's `KeyError`. -/
def getIndex (ix : List (String × List Vec)) (key : String) : Option (List Vec) :=
  (ix.find? (fun p => p.1 == key)).map Prod.snd

/-- Dict assignment `self.indexes[key] = v`: replaces the entry if the key is
present, appends it otherwise. -/
def setIndex : List (String × List Vec) → String → List Vec → List (String × List Vec)
  | [], key, v => [(key, v)]
  | (k, w) :: rest, key, v =>
    if k == key then (key, v) :: rest else (k, w) :: setIndex rest key v

/-- The dict built by `_load_indexes` on a cold start: one empty index per
content type. -/
def initialIndexes : List (String × List Vec) :=
  [("capabilities", []), ("business_goals", []), ("recommendations", [])]

/-- Cold-start state: empty indexes, empty record table. -/
def initialState : VMState := ⟨initialIndexes, []⟩

/-- The `index_key` computation repeated in `add_vector`, `search_similar` and
`rebuild_index` (lines 121-127 etc.): lowercase, pluralise unless already
ending in `s`, then the three explicit overrides. -/
def indexKeyOf (content_type : String) : String :=
  let base :=
    if pyEndsWith (pyLower content_type) "s" then pyLower content_type
    else pyLower content_type ++ "s"
  if content_type == "BUSINESS_GOAL" then "business_goals"
  else if content_type == "RECOMMENDATION" then "recommendations"
  else if content_type == "CAPABILITY" then "capabilities"
  else base

/-- `VectorManager.generate_embedding`: strip the text, raise `ValueError` if
empty, otherwise call the external service (whose outcome is the parameter
`svc`); the `except` clause logs and re-raises, i.e. failures propagate. -/
def generate_embedding (svc : String → Except String Vec) (text : String) :
    Except VMError Vec :=
  let t := pyStrip text
  if t.data.isEmpty then .error (.valueError "Text cannot be empty")
  else
    match svc t with
    | .ok v => .ok v
    | .error e => .error (.serviceError e)

/-- Whether a record is the row keyed by `(content_type, object_id)`. -/
def keyMatch (r : VectorRecord) (content_type object_id : String) : Bool :=
  r.content_type == content_type && r.object_id == object_id

/-- Django `update_or_create(content_type=…, object_id=…, defaults={…})` on the
`VectorEmbedding` table: if a row with the key exists it is updated with the
defaults (`vector_index`, `text_content`, `embedding_model`), otherwise a new
row is inserted.  Returns the new table and the `created` flag. -/
def update_or_create (records : List VectorRecord)
    (content_type object_id : String) (vector_index : Nat) (text : String) :
    List VectorRecord × Bool :=
  if records.any (fun r => keyMatch r content_type object_id) then
    (records.map (fun r =>
        if keyMatch r content_type object_id then
          { r with vector_index := vector_index, text_content := text,
                   embedding_model := "text-embedding-004" }
        else r),
     false)
  else
    (records ++ [⟨content_type, object_id, vector_index, text, "text-embedding-004"⟩],
     true)

/-- `VectorManager.add_vector`: generate the embedding (failures propagate),
resolve the index key (`KeyError` if unknown), read `index.ntotal` as the new
position, append the vector, `update_or_create` the record, and return the
position.  `_save_indexes` (disk I/O, swallows its own errors) does not touch
the in-memory state and is modelled separately by `save_indexes_writes`. -/
def add_vector (svc : String → Except String Vec) (st : VMState)
    (content_type object_id text : String) : Except VMError (Nat × VMState) := do
  let v ← generate_embedding svc text
  let key := indexKeyOf content_type
  match getIndex st.indexes key with
  | none => .error (.keyError key)
  | some idx =>
    let vector_index := idx.length
    .ok (vector_index,
      ⟨setIndex st.indexes key (idx ++ [v]),
       (update_or_create st.records content_type object_id vector_index text).1⟩)

-- basic lemmas about the index dict

theorem getIndex_setIndex (ix : List (String × List Vec)) (key : String) (v : List Vec) :
    getIndex (setIndex ix key v) key = some v := by
  induction ix with
  | nil => simp [setIndex, getIndex]
  | cons p rest ih =>
    obtain ⟨k, w⟩ := p
    by_cases h : k == key
    · simp [setIndex, h, getIndex]
    · simp only [setIndex, h, if_neg]
      simp only [getIndex, List.find?] at ih ⊢
      simp [h, ih]

/-- C1 helper: on success `add_vector` returns the pre-insert size and appends
the vector at the key's index. -/
theorem add_vector_ok (svc : String → Except String Vec) (st : VMState)
    (content_type object_id text : String) (v : Vec) (idx : List Vec)
    (hemb : generate_embedding svc text = Except.ok v)
    (hkey : getIndex st.indexes (indexKeyOf content_type) = some idx) :
    add_vector svc st content_type object_id text =
      Except.ok (idx.length,
        ⟨setIndex st.indexes (indexKeyOf content_type) (idx ++ [v]),
         (update_or_create st.records content_type object_id idx.length text).1⟩) := by
  unfold add_vector
  rw [hemb]
  dsimp only [bind, Except.bind]
  rw [hkey]

/-- C1: `add_vector` appends the vector to the category index and returns an
`index_position` equal to the index's vector count immediately before the
insert; on an empty index the first add returns position 0 and, since each add
grows the index by exactly one, the n-th add returns n-1. -/
theorem add_vector_returns_preinsert_size (svc : String → Except String Vec)
    (st : VMState) (content_type object_id text : String) (v : Vec) (idx : List Vec)
    (hemb : generate_embedding svc text = Except.ok v)
    (hkey : getIndex st.indexes (indexKeyOf content_type) = some idx) :
    (add_vector svc st content_type object_id text).toOption.map Prod.fst
        = some idx.length
    ∧ (add_vector svc st content_type object_id text).toOption.bind
        (fun p => getIndex p.2.indexes (indexKeyOf content_type))
        = some (idx ++ [v]) := by
  rw [add_vector_ok svc st content_type object_id text v idx hemb hkey]
  exact ⟨rfl, by simp [Except.toOption, getIndex_setIndex]⟩

/-- Embedding-service stub that succeeds on every text with a fixed vector. -/
def svcConst (v : Vec) : String → Except String Vec := fun _ => .ok v

/-- C1 witness: on the cold-start state the first add returns position 0, and
on the state it produces a second add returns position 1. -/
theorem add_vector_returns_preinsert_size_witness :
    ((add_vector (svcConst [1]) initialState "CAPABILITY" "c1"
        "Customer Onboarding").toOption.map Prod.fst = some 0)
    ∧ ((add_vector (svcConst [1]) initialState "CAPABILITY" "c1"
        "Customer Onboarding").toOption.bind
        (fun p => (add_vector (svcConst [1]) p.2 "CAPABILITY" "c2"
          "Customer Support").toOption.map Prod.fst) = some 1) := by
  refine ⟨(add_vector_returns_preinsert_size (svcConst [1]) initialState
    "CAPABILITY" "c1" "Customer Onboarding" [1] [] (by decide) (by decide)).1, ?_⟩
  have h := add_vector_ok (svcConst [1]) initialState "CAPABILITY" "c1"
    "Customer Onboarding" [1] [] (by decide) (by decide)
  rw [h]
  simp only [Except.toOption, Option.bind_some, Option.some_bind]
  exact (add_vector_returns_preinsert_size (svcConst [1])
    ⟨setIndex initialState.indexes (indexKeyOf "CAPABILITY") ([] ++ [[1]]),
     (update_or_create initialState.records "CAPABILITY" "c1" [].length
        "Customer Onboarding").1⟩
    "CAPABILITY" "c2" "Customer Support" [1] [[1]] (by decide) (by decide)).1

/-- `VectorManager.remove_vector`: find the `VectorEmbedding` row keyed by
`(content_type, object_id)`; if present, delete that row.  The FAISS index is
never touched (the `# !!!!! INEFFICIENT IN FAISS` comment in the source marks
the vector as left behind).  The Python function has no `return` statement, so
it returns `None` on every path; that value is modelled as
`(none : Option Bool)`, where `some b` would model returning a boolean `b`. -/
def remove_vector (st : VMState) (content_type object_id : String) :
    Option Bool × VMState :=
  match st.records.find? (fun r => keyMatch r content_type object_id) with
  | some _ =>
    (none, ⟨st.indexes, st.records.eraseP (fun r => keyMatch r content_type object_id)⟩)
  | none => (none, st)

/-- A single vector record used by concrete scenarios. -/
def exRecord : VectorRecord :=
  ⟨"CAPABILITY", "c1", 0, "Customer Onboarding", "text-embedding-004"⟩

/-- A state holding one capability vector and its record. -/
def exState : VMState :=
  ⟨setIndex initialIndexes "capabilities" [[1]], [exRecord]⟩

/-- C2 counterexample: on a state where the record for `("CAPABILITY", "c1")`
exists, `remove_vector` does not return `some true` (it returns `none`,
modelling Python's `None`): the source function has no `return` statement, so
it never "returns a boolean telling whether anything was deleted". -/
theorem remove_vector_no_boolean_result :
    ¬ ((remove_vector exState "CAPABILITY" "c1").1
        = some (exState.records.any (fun r => keyMatch r "CAPABILITY" "c1"))) := by
  decide

/-- C2 (amended): `remove_vector` deletes the bookkeeping record if one exists,
returns no deletion indicator (Python `None`) whether or not a record existed,
and never modifies the category indexes: `st.indexes` is unchanged on every
path, so every index's vector count is the same before and after the call. -/
theorem remove_vector_deletes_record_only (st : VMState) (content_type object_id : String) :
    (remove_vector st content_type object_id).1 = none
    ∧ (remove_vector st content_type object_id).2.indexes = st.indexes
    ∧ (remove_vector st content_type object_id).2.records =
        (if st.records.any (fun r => keyMatch r content_type object_id) then
          st.records.eraseP (fun r => keyMatch r content_type object_id)
        else st.records) := by
  unfold remove_vector
  cases hfind : st.records.find? (fun r => keyMatch r content_type object_id) with
  | none =>
    have hany : st.records.any (fun r => keyMatch r content_type object_id) = false := by
      rw [List.any_eq_false]
      intro r hr
      have := List.find?_eq_none.mp hfind r hr
      simpa using this
    simp [hany]
  | some r =>
    have hmem := List.mem_of_find?_eq_some hfind
    have hkeyr := List.find?_some hfind
    have hany : st.records.any (fun r => keyMatch r content_type object_id) = true :=
      List.any_eq_true.mpr ⟨r, hmem, hkeyr⟩
    simp [hany]

/-- A disk write performed by the persistence layer: either a direct write to
the live path, or a write to a temporary path followed by an atomic rename. -/
inductive FileWrite where
  | inPlace (path : String)
  | tempThenRename (tempPath livePath : String)
deriving DecidableEq, Repr

/-- `VectorManager._get_index_path`: `vector_storage/<content_type.lower()>.faiss`
(the storage root `settings.BASE_DIR/vector_storage` is abbreviated to
`vector_storage/`). -/
def get_index_path (content_type : String) : String :=
  "vector_storage/" ++ pyLower content_type ++ ".faiss"

/-- `VectorManager._get_metadata_path`. -/
def get_metadata_path : String := "vector_storage/metadata.json"

/-- Whether a write is crash-safe in the sense of the persistence requirement:
it goes to a temporary location and is atomically renamed over the live file. -/
def FileWrite.isCrashSafe : FileWrite → Bool
  | .tempThenRename _ _ => true
  | .inPlace _ => false

/-- The write plan of `VectorManager._save_indexes`: `faiss.write_index(index,
index_path)` straight to the live path for each of the three indexes (dict
insertion order), then `open(metadata_path, 'w')` + `json.dump` straight to
the live metadata path.  No temporary file and no rename appear anywhere in
the function. -/
def save_indexes_writes : List FileWrite :=
  [.inPlace (get_index_path "capabilities"),
   .inPlace (get_index_path "business_goals"),
   .inPlace (get_index_path "recommendations"),
   .inPlace get_metadata_path]

/-- C8 counterexample: not every persistence write of `_save_indexes` is
crash-safe — the claim "writes to a temporary location and atomically
renames" fails on the very first write it performs. -/
theorem save_indexes_not_crash_safe :
    save_indexes_writes.all FileWrite.isCrashSafe = false := by
  decide

/-- C8 (amended): every persistence write performed by `_save_indexes` — the
three index blobs and the record-store metadata file — overwrites the live
file in place by a direct write; none uses a temporary location with an
atomic rename/replace. -/
theorem save_indexes_writes_in_place :
    save_indexes_writes.all (fun w => w.isCrashSafe == false) = true := by
  decide

/-- C9: for every input text that is empty after trimming whitespace,
`generate_embedding` raises `ValueError("Text cannot be empty")` (the spec's
`InvalidInput`), and `add_vector` on such text propagates that error.  The
raise happens on the first line of `add_vector`'s body, before the index or
the record store is touched, so the rejection is synchronous with no partial
mutation — correspondingly the error result carries no successor state. -/
theorem add_vector_rejects_empty_text (svc : String → Except String Vec)
    (st : VMState) (content_type object_id text : String)
    (h : (pyStrip text).data.isEmpty = true) :
    generate_embedding svc text = .error (.valueError "Text cannot be empty")
    ∧ add_vector svc st content_type object_id text
        = .error (.valueError "Text cannot be empty") := by
  have hg : generate_embedding svc text
      = .error (.valueError "Text cannot be empty") := by
    unfold generate_embedding
    simp [h]
  refine ⟨hg, ?_⟩
  unfold add_vector
  rw [hg]
  rfl

/-- C9 witness: a whitespace-only text is rejected on a concrete state. -/
theorem add_vector_rejects_empty_text_witness :
    ((pyStrip "   ").data.isEmpty = true)
    ∧ add_vector (svcConst [1]) exState "CAPABILITY" "c7" "   "
        = .error (.valueError "Text cannot be empty") :=
  ⟨by decide,
   (add_vector_rejects_empty_text (svcConst [1]) exState "CAPABILITY" "c7" "   "
     (by decide)).2⟩

/-- Embedding-service stub that fails on every text with the given message. -/
def svcFail (msg : String) : String → Except String Vec := fun _ => .error msg

/-- C3 counterexample: when the embedding service fails during an add, the add
does not complete without error — on a concrete state the failure propagates
out of `add_vector` as a re-raised service error, and no random vector is
substituted anywhere in the source. -/
theorem add_vector_service_failure_not_masked :
    add_vector (svcFail "503 quota exceeded") exState "CAPABILITY" "c9"
        "Improve onboarding"
      = .error (.serviceError "503 quota exceeded") := by
  decide

/-- C3 (amended): when the external embedding service call fails during an add
operation on non-empty text, `generate_embedding`'s `except` clause logs and
re-raises, and `add_vector`'s `except` clause does the same, so the failure
propagates to the caller (policy (a)); no normalized random vector is
substituted and the add does not complete. -/
theorem add_vector_propagates_service_error (svc : String → Except String Vec)
    (st : VMState) (content_type object_id text e : String)
    (hne : (pyStrip text).data.isEmpty = false)
    (hsvc : svc (pyStrip text) = .error e) :
    add_vector svc st content_type object_id text = .error (.serviceError e) := by
  have hg : generate_embedding svc text = .error (.serviceError e) := by
    unfold generate_embedding
    simp [hne, hsvc]
  unfold add_vector
  rw [hg]
  rfl

/-- C3 (amended) witness: a concrete failing service makes a concrete add
fail with the propagated service error. -/
theorem add_vector_propagates_service_error_witness :
    ((pyStrip "hello").data.isEmpty = false)
    ∧ add_vector (svcFail "boom") initialState "BUSINESS_GOAL" "g1" "hello"
        = .error (.serviceError "boom") :=
  ⟨by decide,
   add_vector_propagates_service_error (svcFail "boom") initialState
     "BUSINESS_GOAL" "g1" "hello" "boom" (by decide) (by decide)⟩

/-- Inner product of two vectors — the score computed by `faiss.IndexFlatIP`
(`np.dot`); with unit-normalised vectors it is the cosine similarity. -/
def innerProduct (a b : Vec) : ℚ :=
  ((a.zip b).map (fun p => p.1 * p.2)).sum

/-- Hit ordering of FAISS search results.  Modelled from the spec: §4.2 ranks
by inner product descending and §4.4 step 6 breaks ties by index position
ascending. -/
def hitBefore (a b : ℚ × Nat) : Bool :=
  if a.1 = b.1 then decide (a.2 < b.2) else decide (b.1 < a.1)

/-- Insert a hit into a list sorted by `hitBefore`. -/
def insertHit (h : ℚ × Nat) : List (ℚ × Nat) → List (ℚ × Nat)
  | [] => [h]
  | x :: xs => if hitBefore h x then h :: x :: xs else x :: insertHit h xs

/-- Insertion sort by `hitBefore`. -/
def sortHits : List (ℚ × Nat) → List (ℚ × Nat)
  | [] => []
  | x :: xs => insertHit x (sortHits xs)

/-- Modelled from the spec: `faiss.IndexFlatIP.search(query, n)` — not part of
this repository.  Scores every stored vector against the query by inner
product and returns the best `n` hits as `(score, index_position)` pairs,
ranked descending, ties by position ascending (§4.2, §4.4 step 6). -/
def faissSearch (idx : List Vec) (q : Vec) (n : Nat) : List (ℚ × Nat) :=
  (sortHits (idx.enum.map (fun p => (innerProduct q p.2, p.1)))).take n

/-- One entry of the list returned by `search_similar`: the fields common to
all three content types.  The per-type display fields copied from the related
object (name, title, status, …) belong to the excluded CRUD object model and
carry no subsystem state, so they are omitted. -/
structure SearchResult where
  object_id : String
  similarity_score : ℚ
  vector_index : Nat
  text_content : String
deriving DecidableEq, Repr

/-- Resolution of one above-threshold hit (`search_similar` lines 182-229):
Django `.get(content_type=…, vector_index=idx)` — `DoesNotExist` is caught and
skips the hit (`none`) — then the `related_object` lookup; a missing related
object also skips the hit. -/
def resolveHit (related : String → String → Bool) (records : List VectorRecord)
    (content_type : String) (score : ℚ) (pos : Nat) : Option SearchResult :=
  match records.find? (fun r => r.content_type == content_type
      && r.vector_index == pos) with
  | none => none
  | some r =>
    if related content_type r.object_id then
      some ⟨r.object_id, score, pos, r.text_content⟩
    else none

/-- The result loop of `search_similar` (lines 179-231): for each hit in FAISS
order, keep it only if `score >= threshold` and it resolves to a live record
with a live related object. -/
def processHits (related : String → String → Bool) (records : List VectorRecord)
    (content_type : String) (threshold : ℚ) : List (ℚ × Nat) → List SearchResult
  | [] => []
  | (score, pos) :: rest =>
    if threshold ≤ score then
      match resolveHit related records content_type score pos with
      | some r => r :: processHits related records content_type threshold rest
      | none => processHits related records content_type threshold rest
    else processHits related records content_type threshold rest

/-- One step of the result loop. -/
theorem processHits_cons (related : String → String → Bool)
    (records : List VectorRecord) (content_type : String) (threshold : ℚ)
    (score : ℚ) (pos : Nat) (rest : List (ℚ × Nat)) :
    processHits related records content_type threshold ((score, pos) :: rest)
      = if threshold ≤ score then
          match resolveHit related records content_type score pos with
          | some r => r :: processHits related records content_type threshold rest
          | none => processHits related records content_type threshold rest
        else processHits related records content_type threshold rest := rfl

/-- `VectorManager.search_similar`: embed the query, resolve the index key,
return `[]` on an empty index, ask FAISS for `min(k, ntotal)` hits, and run
the result loop.  The whole body sits in `try/except Exception: return []`,
so an embedding failure and the `KeyError` of an unknown category both yield
the empty list instead of raising. -/
def search_similar (svc : String → Except String Vec)
    (related : String → String → Bool) (st : VMState)
    (content_type query_text : String) (k : Nat) (threshold : ℚ) :
    List SearchResult :=
  match generate_embedding svc query_text with
  | .error _ => []
  | .ok qv =>
    match getIndex st.indexes (indexKeyOf content_type) with
    | none => []
    | some idx =>
      if idx.length = 0 then []
      else
        processHits related st.records content_type threshold
          (faissSearch idx qv (min k idx.length))

/-- On the happy path `search_similar` is the result loop applied to the FAISS
hits. -/
theorem search_similar_eq_processHits (svc : String → Except String Vec)
    (related : String → String → Bool) (st : VMState)
    (content_type query_text : String) (k : Nat) (threshold : ℚ)
    (qv : Vec) (idx : List Vec) (hits : List (ℚ × Nat))
    (hemb : generate_embedding svc query_text = Except.ok qv)
    (hidx : getIndex st.indexes (indexKeyOf content_type) = some idx)
    (hne : idx.length ≠ 0)
    (hhits : faissSearch idx qv (min k idx.length) = hits) :
    search_similar svc related st content_type query_text k threshold
      = processHits related st.records content_type threshold hits := by
  unfold search_similar
  rw [hemb]
  dsimp only
  rw [hidx]
  dsimp only
  rw [if_neg hne, hhits]

/-- The result loop never returns more results than it was given hits. -/
theorem processHits_length_le (related : String → String → Bool)
    (records : List VectorRecord) (content_type : String) (threshold : ℚ)
    (hits : List (ℚ × Nat)) :
    (processHits related records content_type threshold hits).length ≤ hits.length := by
  induction hits with
  | nil => simp [processHits]
  | cons h rest ih =>
    obtain ⟨score, pos⟩ := h
    unfold processHits
    by_cases hth : threshold ≤ score
    · rw [if_pos hth]
      cases hres : resolveHit related records content_type score pos with
      | none => exact Nat.le_succ_of_le ih
      | some r => simpa using ih
    · rw [if_neg hth]
      exact Nat.le_succ_of_le ih

/-- C4: a FAISS hit whose `index_position` has no resolvable record is
silently skipped — the search result equals the result of processing the
remaining hits, whether the hit was above or below the threshold — and a
skipped hit does not count toward the result size, so the returned list can
hold fewer than `k` results even when the index holds at least `k` vectors
(the result count is bounded by the number of *other* hits). -/
theorem search_skips_unresolvable_hit (svc : String → Except String Vec)
    (related : String → String → Bool) (st : VMState)
    (content_type query_text : String) (k : Nat) (threshold : ℚ)
    (qv : Vec) (idx : List Vec) (s : ℚ) (i : Nat) (rest : List (ℚ × Nat))
    (hemb : generate_embedding svc query_text = Except.ok qv)
    (hidx : getIndex st.indexes (indexKeyOf content_type) = some idx)
    (hne : idx.length ≠ 0)
    (hhits : faissSearch idx qv (min k idx.length) = (s, i) :: rest)
    (hres : resolveHit related st.records content_type s i = none) :
    search_similar svc related st content_type query_text k threshold
      = processHits related st.records content_type threshold rest
    ∧ (search_similar svc related st content_type query_text k threshold).length
        ≤ rest.length := by
  have hmain := search_similar_eq_processHits svc related st content_type
    query_text k threshold qv idx ((s, i) :: rest) hemb hidx hne hhits
  have hskip : processHits related st.records content_type threshold ((s, i) :: rest)
      = processHits related st.records content_type threshold rest := by
    rw [processHits_cons]
    by_cases hth : threshold ≤ s
    · rw [if_pos hth, hres]
    · rw [if_neg hth]
  refine ⟨hmain.trans hskip, ?_⟩
  rw [hmain, hskip]
  exact processHits_length_le related st.records content_type threshold rest

/-- Related-object resolution stub: every source entity exists. -/
def relatedAll : String → String → Bool := fun _ _ => true

/-- A state whose capability index holds one vector but whose record store is
empty: the position is orphaned. -/
def orphanState : VMState := ⟨setIndex initialIndexes "capabilities" [[1]], []⟩

/-- C4 witness: with one vector in the index (`size() = 1 ≥ k = 1`) and no
record for its position, the search silently returns the empty list. -/
theorem search_skips_unresolvable_hit_witness :
    (getIndex orphanState.indexes (indexKeyOf "CAPABILITY")).map List.length = some 1
    ∧ search_similar (svcConst [1]) relatedAll orphanState "CAPABILITY"
        "customer" 1 0 = [] := by
  refine ⟨by decide, ?_⟩
  have h := (search_skips_unresolvable_hit (svcConst [1]) relatedAll orphanState
    "CAPABILITY" "customer" 1 0 [1] [[1]] 1 0 []
    (by decide) (by decide) (by decide)
    (by norm_num [faissSearch, sortHits, insertHit, innerProduct, List.enum])
    (by decide)).1
  rw [h]
  rfl

/-- C5: at the filtering step of `search_similar` (the `score >= threshold`
test of line 181), a hit whose score is exactly equal to the threshold is
included in the results (given it resolves to a live record), and a hit whose
score is strictly below the threshold is excluded. -/
theorem search_threshold_boundary (svc : String → Except String Vec)
    (related : String → String → Bool) (st : VMState)
    (content_type query_text : String) (k : Nat) (threshold : ℚ)
    (qv : Vec) (idx : List Vec) (s : ℚ) (i : Nat) (rest : List (ℚ × Nat))
    (r : SearchResult)
    (hemb : generate_embedding svc query_text = Except.ok qv)
    (hidx : getIndex st.indexes (indexKeyOf content_type) = some idx)
    (hne : idx.length ≠ 0)
    (hhits : faissSearch idx qv (min k idx.length) = (s, i) :: rest)
    (hres : resolveHit related st.records content_type s i = some r) :
    (s = threshold →
      search_similar svc related st content_type query_text k threshold
        = r :: processHits related st.records content_type threshold rest)
    ∧ (s < threshold →
      search_similar svc related st content_type query_text k threshold
        = processHits related st.records content_type threshold rest) := by
  have hmain := search_similar_eq_processHits svc related st content_type
    query_text k threshold qv idx ((s, i) :: rest) hemb hidx hne hhits
  constructor
  · intro heq
    rw [hmain, processHits_cons, if_pos (le_of_eq heq.symm), hres]
  · intro hlt
    rw [hmain, processHits_cons, if_neg (not_le.mpr hlt)]

/-- C5 witness: a concrete search whose single hit scores exactly the
threshold returns that hit. -/
theorem search_threshold_boundary_witness :
    search_similar (svcConst [1]) relatedAll exState "CAPABILITY"
        "customer onboarding" 5 1
      = [⟨"c1", 1, 0, "Customer Onboarding"⟩] := by
  have h := (search_threshold_boundary (svcConst [1]) relatedAll exState
    "CAPABILITY" "customer onboarding" 5 1 [1] [[1]] 1 0 []
    ⟨"c1", 1, 0, "Customer Onboarding"⟩
    (by decide) (by decide) (by decide)
    (by norm_num [faissSearch, sortHits, insertHit, innerProduct, List.enum])
    (by decide)).1 rfl
  rw [h]
  rfl

/-- C10 (implicit): `search_similar` is a total function into result lists —
its body is wrapped in `try/except Exception: return []` — and each modelled
internal failure yields the empty list: an embedding-service failure on the
query text, and the `KeyError` of a category with no index.  An empty list is
therefore indistinguishable from a no-match outcome at the public interface. -/
theorem search_similar_failure_yields_empty (svc : String → Except String Vec)
    (related : String → String → Bool) (st : VMState)
    (content_type query_text : String) (k : Nat) (threshold : ℚ) :
    (∀ e, generate_embedding svc query_text = Except.error e →
      search_similar svc related st content_type query_text k threshold = [])
    ∧ (getIndex st.indexes (indexKeyOf content_type) = none →
      search_similar svc related st content_type query_text k threshold = []) := by
  constructor
  · intro e he
    unfold search_similar
    rw [he]
  · intro hnone
    unfold search_similar
    cases hg : generate_embedding svc query_text with
    | error e => rfl
    | ok qv =>
      dsimp only
      rw [hnone]

/-- C10 witness: a concrete failing embedding service makes a concrete search
return the empty list. -/
theorem search_similar_failure_yields_empty_witness :
    search_similar (svcFail "service down") relatedAll exState "CAPABILITY"
        "customer" 5 (7/10) = [] :=
  (search_similar_failure_yields_empty (svcFail "service down") relatedAll
    exState "CAPABILITY" "customer" 5 (7/10)).1
    (.serviceError "service down") (by decide)

/-- A record matching the `(content_type, object_id)` key agrees with it
field by field. -/
theorem keyMatch_eq (r : VectorRecord) (content_type object_id : String)
    (h : keyMatch r content_type object_id = true) :
    r.content_type = content_type ∧ r.object_id = object_id := by
  unfold keyMatch at h
  simpa only [Bool.and_eq_true, beq_iff_eq] using h

/-- Inversion of a successful `add_vector`: the embedding succeeded, the
returned position is the pre-insert size, and the new state is the old one
with the vector appended and the record upserted. -/
theorem add_vector_ok_inv (svc : String → Except String Vec) (st : VMState)
    (content_type object_id text : String) (p : Nat) (st' : VMState)
    (idx : List Vec)
    (hkey : getIndex st.indexes (indexKeyOf content_type) = some idx)
    (h : add_vector svc st content_type object_id text = Except.ok (p, st')) :
    ∃ v, generate_embedding svc text = Except.ok v
      ∧ p = idx.length
      ∧ st' = ⟨setIndex st.indexes (indexKeyOf content_type) (idx ++ [v]),
               (update_or_create st.records content_type object_id idx.length text).1⟩ := by
  cases hg : generate_embedding svc text with
  | error e =>
    unfold add_vector at h
    rw [hg] at h
    exact absurd h (by simp [bind, Except.bind])
  | ok v =>
    rw [add_vector_ok svc st content_type object_id text v idx hg hkey] at h
    obtain ⟨h1, h2⟩ := Prod.mk.injEq .. |>.mp (Except.ok.inj h)
    exact ⟨v, rfl, h1.symm, h2.symm⟩

/-- After `update_or_create`'s map step, every record matching the key has
been rewritten to carry the new `vector_index` and text. -/
theorem filter_update_map (records : List VectorRecord)
    (content_type object_id : String) (vector_index : Nat) (text : String) :
    ((records.map (fun r =>
        if keyMatch r content_type object_id then
          { r with vector_index := vector_index, text_content := text,
                   embedding_model := "text-embedding-004" }
        else r)).filter (fun r => keyMatch r content_type object_id))
      = (records.filter (fun r => keyMatch r content_type object_id)).map
          (fun _ => (⟨content_type, object_id, vector_index, text,
            "text-embedding-004"⟩ : VectorRecord)) := by
  induction records with
  | nil => rfl
  | cons r rest ih =>
    by_cases h : keyMatch r content_type object_id
    · obtain ⟨hct, hoid⟩ := keyMatch_eq r content_type object_id h
      have hupd : keyMatch
          { r with vector_index := vector_index, text_content := text,
                   embedding_model := "text-embedding-004" }
          content_type object_id = true := by
        simp [keyMatch, hct, hoid]
      simp only [List.map_cons, List.filter_cons, h, hupd, if_pos, ih]
      simp [hct, hoid]
    · have h' : keyMatch r content_type object_id = false := by
        simpa using h
      simp only [List.map_cons, List.filter_cons, h', ih]
      simp [h']

/-- If the record table holds at most one row for a key (the DB's
`unique_embedding_per_object` constraint), then after `update_or_create` it
holds exactly one, carrying the new position and text. -/
theorem update_or_create_filter (records : List VectorRecord)
    (content_type object_id : String) (vector_index : Nat) (text : String)
    (h : (records.filter (fun r => keyMatch r content_type object_id)).length ≤ 1) :
    ((update_or_create records content_type object_id vector_index text).1.filter
        (fun r => keyMatch r content_type object_id))
      = [⟨content_type, object_id, vector_index, text, "text-embedding-004"⟩] := by
  unfold update_or_create
  by_cases hany : records.any (fun r => keyMatch r content_type object_id)
  · rw [if_pos hany]
    dsimp only
    rw [filter_update_map]
    obtain ⟨r0, hr0mem, hr0⟩ := List.any_eq_true.mp hany
    have hne : records.filter (fun r => keyMatch r content_type object_id) ≠ [] := by
      intro hnil
      have hmem2 : r0 ∈ records.filter (fun r => keyMatch r content_type object_id) :=
        List.mem_filter.mpr ⟨hr0mem, hr0⟩
      rw [hnil] at hmem2
      exact absurd hmem2 (List.not_mem_nil r0)
    have hlen1 : (records.filter (fun r => keyMatch r content_type object_id)).length = 1 := by
      have := List.length_pos.mpr hne
      omega
    obtain ⟨a, ha⟩ := List.length_eq_one.mp hlen1
    rw [ha]
    rfl
  · rw [if_neg hany]
    dsimp only
    rw [List.filter_append]
    have hnil : records.filter (fun r => keyMatch r content_type object_id) = [] := by
      rw [List.filter_eq_nil_iff]
      intro r hr
      intro hkm
      exact hany (List.any_eq_true.mpr ⟨r, hr, hkm⟩)
    rw [hnil]
    simp [keyMatch]

/-- C6: calling `add_vector` twice for the same `(category, object_id)` —
possibly with different texts — grows the category index's vector count by 2
(the first vector stays, orphaned), yet leaves exactly one record in the
record store for that key, and that record's `index_position` is the position
returned by the second (latest) add, namely the pre-insert size plus one. -/
theorem add_vector_twice_one_record (svc : String → Except String Vec)
    (st : VMState) (content_type object_id t1 t2 : String)
    (p1 p2 : Nat) (st1 st2 : VMState) (idx : List Vec)
    (hkey : getIndex st.indexes (indexKeyOf content_type) = some idx)
    (huniq : (st.records.filter (fun r => keyMatch r content_type object_id)).length ≤ 1)
    (h1 : add_vector svc st content_type object_id t1 = Except.ok (p1, st1))
    (h2 : add_vector svc st1 content_type object_id t2 = Except.ok (p2, st2)) :
    ((getIndex st2.indexes (indexKeyOf content_type)).map List.length
        = some (idx.length + 2))
    ∧ st2.records.filter (fun r => keyMatch r content_type object_id)
        = [⟨content_type, object_id, p2, t2, "text-embedding-004"⟩]
    ∧ p2 = idx.length + 1 := by
  obtain ⟨v1, hg1, hp1, hst1⟩ :=
    add_vector_ok_inv svc st content_type object_id t1 p1 st1 idx hkey h1
  have hkey1 : getIndex st1.indexes (indexKeyOf content_type) = some (idx ++ [v1]) := by
    rw [hst1]
    exact getIndex_setIndex st.indexes (indexKeyOf content_type) (idx ++ [v1])
  obtain ⟨v2, hg2, hp2, hst2⟩ :=
    add_vector_ok_inv svc st1 content_type object_id t2 p2 st2 (idx ++ [v1]) hkey1 h2
  have hrec1 : st1.records.filter (fun r => keyMatch r content_type object_id)
      = [⟨content_type, object_id, idx.length, t1, "text-embedding-004"⟩] := by
    rw [hst1]
    exact update_or_create_filter st.records content_type object_id idx.length t1 huniq
  have huniq1 : (st1.records.filter (fun r => keyMatch r content_type object_id)).length ≤ 1 := by
    rw [hrec1]
    simp
  have hrec2 : st2.records.filter (fun r => keyMatch r content_type object_id)
      = [⟨content_type, object_id, (idx ++ [v1]).length, t2, "text-embedding-004"⟩] := by
    rw [hst2]
    exact update_or_create_filter st1.records content_type object_id
      (idx ++ [v1]).length t2 huniq1
  have hlen : (idx ++ [v1]).length = idx.length + 1 := by simp
  refine ⟨?_, ?_, ?_⟩
  · rw [hst2]
    rw [getIndex_setIndex]
    simp
  · rw [hrec2, hp2, hlen]
  · rw [hp2, hlen]

/-- First intermediate state of the C6 scenario: one vector, one record at
position 0. -/
def addTwiceState1 : VMState :=
  ⟨[("capabilities", [[1]]), ("business_goals", []), ("recommendations", [])],
   [⟨"CAPABILITY", "c1", 0, "Customer Onboarding", "text-embedding-004"⟩]⟩

/-- Final state of the C6 scenario: two vectors (the first orphaned), one
record pointing at position 1. -/
def addTwiceState2 : VMState :=
  ⟨[("capabilities", [[1], [1]]), ("business_goals", []), ("recommendations", [])],
   [⟨"CAPABILITY", "c1", 1, "Customer Support", "text-embedding-004"⟩]⟩

/-- C6 witness: two concrete adds for the same key from the cold-start state
leave 2 vectors in the index and exactly 1 record, at position 1. -/
theorem add_vector_twice_one_record_witness :
    ((getIndex addTwiceState2.indexes (indexKeyOf "CAPABILITY")).map List.length
        = some 2)
    ∧ addTwiceState2.records.filter (fun r => keyMatch r "CAPABILITY" "c1")
        = [⟨"CAPABILITY", "c1", 1, "Customer Support", "text-embedding-004"⟩]
    ∧ (1 : Nat) = 0 + 1 := by
  have h := add_vector_twice_one_record (svcConst [1]) initialState "CAPABILITY"
    "c1" "Customer Onboarding" "Customer Support" 0 1 addTwiceState1 addTwiceState2
    [] (by decide) (by decide) (by decide) (by decide)
  simpa using h

/-- The replay loop of `rebuild_index` (lines 290-306): `add_vector` for every
enumerated source object; an add failure aborts the loop, the partially
rebuilt state surviving (Python mutates `self` in place). -/
def rebuildGo (svc : String → Except String Vec) (content_type : String) :
    List (String × String) → VMState → VMState × Option VMError
  | [], st => (st, none)
  | (object_id, text) :: rest, st =>
    match add_vector svc st content_type object_id text with
    | .ok (_, st') => rebuildGo svc content_type rest st'
    | .error e => (st, some e)

/-- One step of the replay loop. -/
theorem rebuildGo_cons (svc : String → Except String Vec) (content_type : String)
    (object_id text : String) (rest : List (String × String)) (st : VMState) :
    rebuildGo svc content_type ((object_id, text) :: rest) st
      = match add_vector svc st content_type object_id text with
        | .ok (_, st') => rebuildGo svc content_type rest st'
        | .error e => (st, some e) := rfl

/-- `VectorManager.rebuild_index`: install a fresh empty index under the
category's key, delete every `VectorEmbedding` record of this content type,
then replay `add_vector` over the source enumeration.  The enumeration — the
Django queryset of lines 290-306 together with its per-type text assembly
(e.g. `f"{obj.name} {obj.description}"`) — is supplied as the list `objs` of
`(object_id, text)` pairs, matching the spec's
`rebuild(category, source_enumeration)` signature. -/
def rebuild_index (svc : String → Except String Vec) (st : VMState)
    (content_type : String) (objs : List (String × String)) :
    VMState × Option VMError :=
  rebuildGo svc content_type objs
    ⟨setIndex st.indexes (indexKeyOf content_type) [],
     st.records.filter (fun r => !(r.content_type == content_type))⟩

/-- Each completed replay step grows the category index by exactly one. -/
theorem rebuildGo_length (svc : String → Except String Vec) (content_type : String)
    (objs : List (String × String)) :
    ∀ (st st' : VMState) (l : List Vec),
      getIndex st.indexes (indexKeyOf content_type) = some l →
      rebuildGo svc content_type objs st = (st', none) →
      (getIndex st'.indexes (indexKeyOf content_type)).map List.length
        = some (l.length + objs.length) := by
  induction objs with
  | nil =>
    intro st st' l hl h
    obtain ⟨h1, _⟩ := Prod.mk.injEq .. |>.mp h
    rw [← h1, hl]
    simp
  | cons ob rest ih =>
    intro st st' l hl h
    obtain ⟨object_id, text⟩ := ob
    rw [rebuildGo_cons] at h
    cases hadd : add_vector svc st content_type object_id text with
    | error e =>
      rw [hadd] at h
      simp at h
    | ok p =>
      obtain ⟨pp, stn⟩ := p
      rw [hadd] at h
      obtain ⟨v, hg, hp, hstn⟩ :=
        add_vector_ok_inv svc st content_type object_id text pp stn l hl hadd
      have hln : getIndex stn.indexes (indexKeyOf content_type) = some (l ++ [v]) := by
        rw [hstn]
        exact getIndex_setIndex st.indexes (indexKeyOf content_type) (l ++ [v])
      have hfin := ih stn st' (l ++ [v]) hln h
      rw [hfin]
      simp only [Option.some.injEq, List.length_append, List.length_cons,
        List.length_nil]
      omega

/-- C7: whenever `rebuild_index` completes (returns no error), the category
index's vector count equals the number of objects in the supplied source
enumeration — regardless of how many orphaned or superseded vectors the index
held before the rebuild, since the old index is replaced by a fresh empty one
before replaying. -/
theorem rebuild_index_size (svc : String → Except String Vec) (st : VMState)
    (content_type : String) (objs : List (String × String)) (st' : VMState)
    (h : rebuild_index svc st content_type objs = (st', none)) :
    (getIndex st'.indexes (indexKeyOf content_type)).map List.length
      = some objs.length := by
  unfold rebuild_index at h
  have h0 : getIndex
      (VMState.mk (setIndex st.indexes (indexKeyOf content_type) [])
        (st.records.filter (fun r => !(r.content_type == content_type)))).indexes
      (indexKeyOf content_type) = some [] :=
    getIndex_setIndex st.indexes (indexKeyOf content_type) []
  have hfin := rebuildGo_length svc content_type objs _ st' [] h0 h
  simpa using hfin

/-- C7 witness: rebuilding from a dirty state (one stale vector and record)
with a two-object source enumeration leaves exactly 2 vectors. -/
theorem rebuild_index_size_witness :
    (getIndex ((rebuild_index (svcConst [1]) exState "CAPABILITY"
          [("a", "Alpha"), ("b", "Beta")]).1).indexes
        (indexKeyOf "CAPABILITY")).map List.length = some 2 := by
  have h := rebuild_index_size (svcConst [1]) exState "CAPABILITY"
    [("a", "Alpha"), ("b", "Beta")]
    (rebuild_index (svcConst [1]) exState "CAPABILITY"
      [("a", "Alpha"), ("b", "Beta")]).1
    (by decide)
  simpa using h
